import Mathlib

/-!
Verification of the event-emission core of the tracing framework
(`bindings/cpp/include/wtf/event.h`) against its specification.

The C++ emission path appends 32-bit words to a per-thread `EventBuffer`.
We embed the buffer as a list of naturals (each entry reduced mod 2^32 at
the `AddEntry` boundary, mirroring the C++ conversion to `uint32_t`), the
string table as an insertion-ordered list of strings, and the typed event
objects as structures holding their `wire_id_` field. Templated C++
argument packs become a `List ArgValue` over an inductive of the five
supported argument types; each `ArgTypeDef<T>::Emit` specialization
becomes one arm of `ArgTypeDef.Emit`. The thread-local buffer slot
(`PlatformGetThreadLocalEventBuffer`) is passed explicitly as an
`Option EventBuffer`.
-/

namespace Wtf

/-- Entries are 32-bit words: every value is reduced modulo `2^32` when it
crosses the `AddEntry(uint32_t)` boundary. -/
def wordMod : Nat := 2 ^ 32

/-- Truncation of a C++ `int16_t` value through the `uint16_t` parameter of
`ArgTypeDef<int16_t>::Emit` (event.h line 55): conversion to an unsigned
16-bit integer is reduction modulo `2^16`. -/
def toUInt16Bits (v : Int) : Nat := (v % (2 ^ 16 : Nat)).toNat

/-- Conversion of a C++ `int32_t` value through the `uint32_t` parameter of
`ArgTypeDef<int32_t>::Emit` (event.h line 60): reduction modulo `2^32`. -/
def toUInt32Bits (v : Int) : Nat := (v % (2 ^ 32 : Nat)).toNat

/-- Modelled from the spec: `StringTable` (its implementation lives outside
the provided sources; src only declares `string_table()` accessors). Spec
section 4.1: a monotonically growing mapping from string to dense 32-bit id;
ids are assigned in insertion order beginning at 1; id 0 is reserved for the
empty string, which is never inserted. We keep the strings in insertion
order; the id of the i-th inserted string is `i + 1`. -/
structure StringTable where
  strings : List String
deriving DecidableEq

/-- `StringTable::kEmptyStringId`: the reserved id 0 of the empty string
(spec sections 3 and 4.1; the constant is declared outside src). -/
def StringTable.kEmptyStringId : Nat := 0

/-- Modelled from the spec: `StringTable::GetStringId` (spec section 4.1,
`intern`): returns the id for `s`, inserting if absent; `intern("")`
returns 0 without insertion; ids are assigned in first-insertion order
beginning at 1. Returns the id together with the updated table. -/
def StringTable.GetStringId (st : StringTable) (s : String) : Nat × StringTable :=
  if s = "" then (StringTable.kEmptyStringId, st)
  else
    match st.strings.findIdx? (fun t => t = s) with
    | some i => (i + 1, st)
    | none => (st.strings.length + 1, ⟨st.strings ++ [s]⟩)

/-- `EventBuffer`: an append-only sequence of 32-bit wire entries owning a
`StringTable` (spec section 3; the class body lives outside src, but every
claim uses it only through `AddEntry` and `string_table()`). -/
structure EventBuffer where
  entries : List Nat
  string_table : StringTable
deriving DecidableEq

/-- Modelled from the spec: `EventBuffer::AddEntry(uint32_t)` (spec
section 4.2 `add_entry`): appends one 32-bit entry at the tail. The
argument is reduced mod `2^32`, mirroring the conversion to `uint32_t` at
the call boundary. -/
def EventBuffer.AddEntry (b : EventBuffer) (v : Nat) : EventBuffer :=
  { b with entries := b.entries ++ [v % wordMod] }

/-- The value of one event argument, covering the five `ArgTypeDef`
specializations in event.h lines 33-61. `ascii none` is a null
`const char*`; `int16`/`int32` carry the signed value of the C++
variable. -/
inductive ArgValue where
  | ascii : Option String → ArgValue
  | uint16 : Nat → ArgValue
  | uint32 : Nat → ArgValue
  | int16 : Int → ArgValue
  | int32 : Int → ArgValue
deriving DecidableEq

/-- The five `ArgTypeDef<T>::Emit` specializations (event.h lines 33-61),
one arm each:
* `const char*`: emit the string-table id, or `kEmptyStringId` for a null
  pointer without consulting the table (lines 36-40);
* `uint16_t`, `uint32_t`: emit the value (lines 45, 50);
* `int16_t`: the `Emit` parameter is declared `uint16_t` (line 55), so the
  signed value is truncated to its low 16 bits and then zero-extended;
* `int32_t`: the `Emit` parameter is declared `uint32_t` (line 60). -/
def ArgTypeDef.Emit (b : EventBuffer) (a : ArgValue) : EventBuffer :=
  match a with
  | .ascii none => b.AddEntry StringTable.kEmptyStringId
  | .ascii (some s) =>
    let r := b.string_table.GetStringId s
    EventBuffer.AddEntry { b with string_table := r.2 } r.1
  | .uint16 v => b.AddEntry (v % 2 ^ 16)
  | .uint32 v => b.AddEntry (v % 2 ^ 32)
  | .int16 v => b.AddEntry (toUInt16Bits v)
  | .int32 v => b.AddEntry (toUInt32Bits v)

/-- Event class (event.h lines 14-20). -/
inductive EventClass where
  | kInstance
  | kScoped
deriving DecidableEq

/-- The data of an `EventDefinition` relevant to registration: wire id,
event class, flags and the borrowed name spec (event.h lines 66-172; the
argument-zipper callback only materializes signatures and plays no role in
the registration claims). -/
structure EventDefinition where
  wire_id : Nat
  event_class : EventClass
  flags : Nat
  name_spec : String
deriving DecidableEq

/-- `EventDefinition::Create` (event.h lines 77-82). -/
def EventDefinition.Create (wire_id : Nat) (event_class : EventClass)
    (flags : Nat) (name_spec : String) : EventDefinition :=
  ⟨wire_id, event_class, flags, name_spec⟩

/-- Modelled from the spec: `EventRegistry::AddEventDefinition` (its body
is outside src; spec section 4.3: `add` takes the lock and appends). The
registry is an append-only ordered sequence. -/
def EventRegistry.AddEventDefinition (registry : List EventDefinition)
    (d : EventDefinition) : List EventDefinition :=
  registry ++ [d]

/-- Process-wide mutable state touched by event construction: the atomic
wire-id counter `next_event_id_` and the registry contents. The counter is
a `std::atomic<int>` (event.h line 165; platform header line 23); we
represent its value by its 32-bit two's-complement bit pattern, a natural
number below `2^32` (the pattern determines the `int` value bijectively, so
pattern equality is value equality). -/
structure ProcessState where
  next_event_id_ : Nat
  registry : List EventDefinition
deriving DecidableEq

/-- `EventDefinition::NextEventId` (event.h line 109): atomic fetch-add on
a `std::atomic<int>`, returning the old counter value and bumping it by
one. Atomic integer arithmetic is defined by the C++ standard to wrap as if
unsigned, so the stored bit pattern advances modulo `2^32`. -/
def EventDefinition.NextEventId (s : ProcessState) : Nat × ProcessState :=
  (s.next_event_id_,
    { s with next_event_id_ := (s.next_event_id_ + 1) % wordMod })

/-- Enabled `EventIf<true, ArgTypes...>`: after construction it holds only
its `wire_id_` (event.h line 268). -/
structure EventIfEnabled where
  wire_id_ : Nat
deriving DecidableEq

/-- The general enabled constructor `EventIf(int wire_id, EventClass, int
flags, const char* name_spec)` (event.h lines 232-236): stores the wire id
and registers one definition. -/
def EventIfEnabled.ctorFull (wire_id : Nat) (event_class : EventClass)
    (flags : Nat) (name_spec : String) (s : ProcessState) :
    EventIfEnabled × ProcessState :=
  (⟨wire_id⟩,
    { s with
      registry := EventRegistry.AddEventDefinition s.registry
        (EventDefinition.Create wire_id event_class flags name_spec) })

/-- The auto-id enabled constructor `EventIf(EventClass, int flags, const
char* name_spec)` (event.h lines 239-241): draws a fresh id from
`NextEventId` and delegates to the general constructor. -/
def EventIfEnabled.ctorAuto (event_class : EventClass) (flags : Nat)
    (name_spec : String) (s : ProcessState) : EventIfEnabled × ProcessState :=
  let r := EventDefinition.NextEventId s
  EventIfEnabled.ctorFull r.1 event_class flags name_spec r.2

/-- `EventIf::EmitArguments` (event.h lines 259-266): peels one argument at
a time, emitting each via its `ArgTypeDef`. -/
def EventIfEnabled.EmitArguments (b : EventBuffer) : List ArgValue → EventBuffer
  | [] => b
  | a :: rest => EventIfEnabled.EmitArguments (ArgTypeDef.Emit b a) rest

/-- `EventIf::InvokeSpecific` (event.h lines 244-248): appends the wire id,
then the 32-bit timestamp (`PlatformGetTimestampMicros32`, passed here as
`ts`), then the arguments. -/
def EventIfEnabled.InvokeSpecific (e : EventIfEnabled) (ts : Nat)
    (b : EventBuffer) (args : List ArgValue) : EventBuffer :=
  EventIfEnabled.EmitArguments ((b.AddEntry e.wire_id_).AddEntry ts) args

/-- `EventIf::Invoke` (event.h lines 251-256): reads the thread-local
buffer slot (`PlatformGetThreadLocalEventBuffer`, passed here as `tls`) and
invokes against it only when one is bound. -/
def EventIfEnabled.Invoke (e : EventIfEnabled) (ts : Nat)
    (tls : Option EventBuffer) (args : List ArgValue) : Option EventBuffer :=
  match tls with
  | none => none
  | some b => some (e.InvokeSpecific ts b args)

/-- `StandardEvents::kScopeLeaveEventId` (event.h line 305). -/
def StandardEvents.kScopeLeaveEventId : Nat := 2

/-- Enabled `ScopedEventIf<true, ArgTypes...>` privately inherits
`EventIf<true, ArgTypes...>` (event.h line 334), so its state is the same
wire id. -/
structure ScopedEventIfEnabled where
  base : EventIfEnabled
deriving DecidableEq

/-- `ScopedEventIf::EnterSpecific` (event.h lines 344-346): delegates to
the base `InvokeSpecific`. -/
def ScopedEventIfEnabled.EnterSpecific (e : ScopedEventIfEnabled) (ts : Nat)
    (b : EventBuffer) (args : List ArgValue) : EventBuffer :=
  e.base.InvokeSpecific ts b args

/-- `ScopedEventIf::LeaveSpecific` (event.h lines 349-353): directly
appends the fixed scope-leave id and a timestamp, bypassing the owning
event's schema. -/
def ScopedEventIfEnabled.LeaveSpecific (ts : Nat) (b : EventBuffer) :
    EventBuffer :=
  (b.AddEntry StandardEvents.kScopeLeaveEventId).AddEntry ts

/-- `ScopedEventIf::Enter` (event.h lines 358-363). -/
def ScopedEventIfEnabled.Enter (e : ScopedEventIfEnabled) (ts : Nat)
    (tls : Option EventBuffer) (args : List ArgValue) : Option EventBuffer :=
  match tls with
  | none => none
  | some b => some (e.EnterSpecific ts b args)

/-- `ScopedEventIf::Leave` (event.h lines 368-373). -/
def ScopedEventIfEnabled.Leave (ts : Nat) (tls : Option EventBuffer) :
    Option EventBuffer :=
  match tls with
  | none => none
  | some b => some (ScopedEventIfEnabled.LeaveSpecific ts b)

/-- Enabled `AutoScopeIf<true, ArgTypes...>` (event.h lines 377-408). In
C++, `event_buffer_` is a pointer that aliases the thread's own buffer for
the lifetime of the guard (the buffer is single-writer and stays bound for
the scope's duration), so in this value-level embedding the guard records
whether a non-null pointer was captured and the thread slot carries the
buffer itself. -/
structure AutoScopeIfEnabled where
  captured : Bool
deriving DecidableEq

/-- The `AutoScopeIf` constructor (event.h lines 386-388): initializes
`event_buffer_` to null; nothing is emitted. -/
def AutoScopeIfEnabled.ctor : AutoScopeIfEnabled := ⟨false⟩

/-- `AutoScopeIf::Enter` (event.h lines 392-397): captures the current
thread-local buffer into `event_buffer_` and, when one is bound, emits the
enter record into it. Returns the updated guard and thread slot. -/
def AutoScopeIfEnabled.Enter (e : ScopedEventIfEnabled) (ts : Nat)
    (tls : Option EventBuffer) (args : List ArgValue) :
    AutoScopeIfEnabled × Option EventBuffer :=
  match tls with
  | none => (⟨false⟩, none)
  | some b => (⟨true⟩, some (e.EnterSpecific ts b args))

/-- The `AutoScopeIf` destructor (event.h lines 399-403): when a buffer
was captured, emits the leave record against it. -/
def AutoScopeIfEnabled.dtor (g : AutoScopeIfEnabled) (ts : Nat)
    (tls : Option EventBuffer) : Option EventBuffer :=
  if g.captured then tls.map (ScopedEventIfEnabled.LeaveSpecific ts) else tls

/-- The disabled specialization `EventIf<false, ArgTypes...>` (event.h
lines 273-289): constructors register nothing, `InvokeSpecific` and
`Invoke` have empty bodies. Each operation is embedded as the identity on
the state it could touch. -/
def EventIfDisabled.ctorFull (s : ProcessState) : ProcessState := s

/-- Disabled auto-id constructor `EventIf<false>::EventIf(EventClass, int,
const char*)` (event.h line 285): empty body. -/
def EventIfDisabled.ctorAuto (s : ProcessState) : ProcessState := s

/-- Disabled `EventIf<false>::InvokeSpecific` (event.h line 287). -/
def EventIfDisabled.InvokeSpecific (b : EventBuffer) : EventBuffer := b

/-- Disabled `EventIf<false>::Invoke` (event.h line 288). -/
def EventIfDisabled.Invoke (tls : Option EventBuffer) : Option EventBuffer :=
  tls

/-- Disabled `ScopedEventIf<false, ArgTypes...>` (event.h lines 434-446):
the constructor and every member have empty bodies. -/
def ScopedEventIfDisabled.ctor (s : ProcessState) : ProcessState := s

/-- Disabled `ScopedEventIf<false>::EnterSpecific` (event.h line 442). -/
def ScopedEventIfDisabled.EnterSpecific (b : EventBuffer) : EventBuffer := b

/-- Disabled `ScopedEventIf<false>::LeaveSpecific` (event.h line 443). -/
def ScopedEventIfDisabled.LeaveSpecific (b : EventBuffer) : EventBuffer := b

/-- Disabled `ScopedEventIf<false>::Enter` (event.h line 444). -/
def ScopedEventIfDisabled.Enter (tls : Option EventBuffer) :
    Option EventBuffer := tls

/-- Disabled `ScopedEventIf<false>::Leave` (event.h line 445). -/
def ScopedEventIfDisabled.Leave (tls : Option EventBuffer) :
    Option EventBuffer := tls

/-- Disabled `AutoScopeIf<false, ArgTypes...>` (event.h lines 412-423):
constructor and `Enter` have empty bodies, and there is no destructor
logic. -/
def AutoScopeIfDisabled.Enter (tls : Option EventBuffer) :
    Option EventBuffer := tls

/-- The entries appended for one argument together with the resulting
string table, as the spec's per-type encoding rule dictates
(spec section 4.3 table): every supported type contributes exactly one
32-bit entry; `ascii` consults the string table, `int16` travels through a
16-bit unsigned parameter, `int32` through a 32-bit unsigned one. -/
def encodeArg (st : StringTable) (a : ArgValue) : List Nat × StringTable :=
  match a with
  | .ascii none => ([StringTable.kEmptyStringId], st)
  | .ascii (some s) =>
    let r := st.GetStringId s
    ([r.1 % wordMod], r.2)
  | .uint16 v => ([v % 2 ^ 16 % wordMod], st)
  | .uint32 v => ([v % 2 ^ 32 % wordMod], st)
  | .int16 v => ([toUInt16Bits v % wordMod], st)
  | .int32 v => ([toUInt32Bits v % wordMod], st)

/-- The concatenated entries of an argument list in declaration order,
threading the string table left to right. -/
def encodeArgs (st : StringTable) : List ArgValue → List Nat × StringTable
  | [] => ([], st)
  | a :: rest =>
    let r := encodeArg st a
    let rs := encodeArgs r.2 rest
    (r.1 ++ rs.1, rs.2)

/-- One auto-id event construction site: the event class, flags and name
spec passed to the `EventIf(EventClass, int, const char*)` constructor. -/
structure CtorSite where
  event_class : EventClass
  flags : Nat
  name_spec : String
deriving DecidableEq

/-- Runs a sequence of auto-id enabled constructions (distinct call sites)
against the process state, in program order. -/
def runAutoCtors (s : ProcessState) : List CtorSite → ProcessState
  | [] => s
  | c :: rest =>
    runAutoCtors (EventIfEnabled.ctorAuto c.event_class c.flags c.name_spec s).2
      rest

/-! ## Helper lemmas -/

/-- Each `ArgTypeDef` emission appends exactly the entries the per-type
encoding rule dictates and leaves the string table as the rule says. -/
theorem emit_eq_encodeArg (b : EventBuffer) (a : ArgValue) :
    ArgTypeDef.Emit b a =
      { entries := b.entries ++ (encodeArg b.string_table a).1,
        string_table := (encodeArg b.string_table a).2 } := by
  cases a with
  | ascii o =>
    cases o with
    | none => rfl
    | some s => rfl
  | uint16 v => rfl
  | uint32 v => rfl
  | int16 v => rfl
  | int32 v => rfl

/-- `EmitArguments` appends exactly the concatenated per-argument entries,
threading the string table in declaration order. -/
theorem emitArguments_eq_encodeArgs (args : List ArgValue) (b : EventBuffer) :
    EventIfEnabled.EmitArguments b args =
      { entries := b.entries ++ (encodeArgs b.string_table args).1,
        string_table := (encodeArgs b.string_table args).2 } := by
  induction args generalizing b with
  | nil => simp [EventIfEnabled.EmitArguments, encodeArgs]
  | cons a rest ih =>
    simp only [EventIfEnabled.EmitArguments, encodeArgs]
    rw [ih, emit_eq_encodeArg]
    simp [List.append_assoc]

/-- Every argument encodes to exactly one 32-bit entry. -/
theorem encodeArg_length_one (st : StringTable) (a : ArgValue) :
    (encodeArg st a).1.length = 1 := by
  cases a with
  | ascii o => cases o <;> rfl
  | uint16 v => rfl
  | uint32 v => rfl
  | int16 v => rfl
  | int32 v => rfl

/-- The auto-id constructor appends one definition carrying the current
counter value and bumps the counter modulo `2^32`. -/
theorem ctorAuto_state (event_class : EventClass) (flags : Nat)
    (name_spec : String) (s : ProcessState) :
    (EventIfEnabled.ctorAuto event_class flags name_spec s).2 =
      { next_event_id_ := (s.next_event_id_ + 1) % wordMod,
        registry := s.registry ++
          [EventDefinition.Create s.next_event_id_ event_class flags
            name_spec] } := rfl

/-- Running auto-id constructions from a counter pattern below `2^32`
registers, after the existing definitions, exactly the ids
`(c + i) % 2^32` for `i` below the number of construction sites. -/
theorem runAutoCtors_registry_map (sites : List CtorSite) (s : ProcessState)
    (hc : s.next_event_id_ < wordMod) :
    (runAutoCtors s sites).registry.map EventDefinition.wire_id =
      s.registry.map EventDefinition.wire_id ++
        (List.range sites.length).map
          (fun i => (s.next_event_id_ + i) % wordMod) := by
  induction sites generalizing s with
  | nil => simp [runAutoCtors]
  | cons c rest ih =>
    have hM : 0 < wordMod := by norm_num [wordMod]
    have hfun : ∀ i : Nat,
        ((s.next_event_id_ + 1) % wordMod + i) % wordMod =
          (s.next_event_id_ + (i + 1)) % wordMod := by
      intro i
      rw [Nat.mod_add_mod]
      congr 1
      omega
    simp only [runAutoCtors, ctorAuto_state]
    rw [ih _ (Nat.mod_lt _ hM)]
    simp only [List.map_append, List.map_cons, List.map_nil,
      EventDefinition.Create, List.length_cons, List.range_succ_eq_map,
      List.map_map, Function.comp, hfun, List.append_assoc,
      List.cons_append, List.nil_append, Nat.add_zero,
      Nat.mod_eq_of_lt hc]
    rw [show (fun i => (s.next_event_id_ + (i + 1)) % wordMod) =
        ((fun i => (s.next_event_id_ + i) % wordMod) ∘ Nat.succ) from
      funext fun i => rfl]

/-- Ids of the form `(c + i) % 2^32` for `i` ranging over fewer than
`2^32` values are pairwise distinct. -/
theorem range_mod_nodup (c n : Nat) (hn : n ≤ wordMod) :
    ((List.range n).map (fun i => (c + i) % wordMod)).Nodup := by
  apply List.Nodup.map_on _ (List.nodup_range n)
  intro x hx y hy hxy
  rw [List.mem_range] at hx hy
  have h1 : x % wordMod = y % wordMod :=
    Nat.ModEq.add_left_cancel' c hxy
  rwa [Nat.mod_eq_of_lt (lt_of_lt_of_le hx hn),
    Nat.mod_eq_of_lt (lt_of_lt_of_le hy hn)] at h1

/-! ## Claim theorems -/

/-- C1: for every enabled instance event and target buffer, one
`InvokeSpecific` emission appends, in order, exactly one 32-bit entry
holding the event's wire id, then one holding the 32-bit-truncated
timestamp, then the encoded arguments in declaration order (each argument
contributing its type's encoding-rule entries, here exactly one 32-bit
entry each), and nothing else; the string table is updated exactly as the
argument encodings dictate. -/
theorem invokeSpecific_layout (e : EventIfEnabled) (ts : Nat)
    (b : EventBuffer) (args : List ArgValue) :
    e.InvokeSpecific ts b args =
      { entries := b.entries ++ [e.wire_id_ % wordMod, ts % wordMod] ++
          (encodeArgs b.string_table args).1,
        string_table := (encodeArgs b.string_table args).2 } ∧
    ∀ st a, (encodeArg st a).1.length = 1 := by
  constructor
  · rw [EventIfEnabled.InvokeSpecific, emitArguments_eq_encodeArgs]
    simp [EventBuffer.AddEntry, List.append_assoc]
  · exact encodeArg_length_one

/-- C2: for every enabled scoped event, whatever its own wire id, a leave
emission appends exactly two 32-bit entries: the fixed scope-leave wire id
2 and then the timestamp, touching neither the owning event's schema (the
emission does not depend on the event at all) nor the string table; `Leave`
with a bound buffer does the same. -/
theorem leave_fixed_record (ts : Nat) (b : EventBuffer) :
    ScopedEventIfEnabled.LeaveSpecific ts b =
      { entries := b.entries ++ [StandardEvents.kScopeLeaveEventId,
          ts % wordMod],
        string_table := b.string_table } ∧
    StandardEvents.kScopeLeaveEventId = 2 ∧
    ScopedEventIfEnabled.Leave ts (some b) =
      some (ScopedEventIfEnabled.LeaveSpecific ts b) := by
  refine ⟨?_, rfl, rfl⟩
  simp [ScopedEventIfEnabled.LeaveSpecific, EventBuffer.AddEntry,
    StandardEvents.kScopeLeaveEventId, wordMod]

/-- C3: when the current thread has no bound thread-local buffer, `Invoke`,
`Enter` and `Leave` are no-ops: no buffer entries are produced anywhere and
the (absent) slot is unchanged. -/
theorem no_buffer_noop (e : EventIfEnabled) (se : ScopedEventIfEnabled)
    (ts : Nat) (args : List ArgValue) :
    e.Invoke ts none args = none ∧
    se.Enter ts none args = none ∧
    ScopedEventIfEnabled.Leave ts none = none :=
  ⟨rfl, rfl, rfl⟩

/-- C4: for every enabled scope guard, over the full lifecycle
(construction, then the `Enter` step that the instrumentation performs
immediately after, then destruction): `Enter` captures the currently bound
thread-local buffer; when one is bound, the enter record is emitted into it
and destruction emits the leave record against the captured buffer; when no
buffer was bound at capture time, both enter and leave are skipped and no
entries are produced. Construction itself captures nothing
(`event_buffer_` starts null), so a guard destroyed straight after
construction also emits nothing. -/
theorem auto_scope_lifecycle (e : ScopedEventIfEnabled) (ts1 ts2 : Nat)
    (args : List ArgValue) (b : EventBuffer) :
    AutoScopeIfEnabled.ctor.captured = false ∧
    AutoScopeIfEnabled.ctor.dtor ts2 (some b) = some b ∧
    (let r := AutoScopeIfEnabled.Enter e ts1 none args
     r.1.dtor ts2 r.2 = none) ∧
    (let r := AutoScopeIfEnabled.Enter e ts1 (some b) args
     r.2 = some (e.EnterSpecific ts1 b args) ∧
     r.1.dtor ts2 r.2 =
       some (ScopedEventIfEnabled.LeaveSpecific ts2
         (e.EnterSpecific ts1 b args))) :=
  ⟨rfl, rfl, rfl, rfl, rfl⟩

/-- C5: the claim says an `int16_t` argument is emitted sign-extended, but
`ArgTypeDef<int16_t>::Emit` declares its value parameter as `uint16_t`
(event.h line 55), so the signed value is truncated to its low 16 bits and
then zero-extended by `AddEntry(uint32_t)`. At v = -1 the emitted entry is
0x0000FFFF = 65535, not the sign-extension 0xFFFFFFFF = 4294967295. -/
theorem int16_zero_extended (b : EventBuffer) :
    (ArgTypeDef.Emit b (.int16 (-1))).entries = b.entries ++ [65535] ∧
    (ArgTypeDef.Emit b (.int16 (-1))).entries ≠
      b.entries ++ [4294967295] := by
  constructor
  · simp [ArgTypeDef.Emit, EventBuffer.AddEntry, toUInt16Bits, wordMod]
  · simp [ArgTypeDef.Emit, EventBuffer.AddEntry, toUInt16Bits, wordMod]

/-- C6: in the disabled parameterization (`kEnable == false`), every
operation of `EventIf`, `ScopedEventIf` and `AutoScopeIf` — construction,
`InvokeSpecific`, `Invoke`, `EnterSpecific`, `Enter`, `LeaveSpecific`,
`Leave` — leaves the process state, every buffer and the thread slot
unchanged: no buffer entries are produced regardless of whether a buffer is
bound. -/
theorem disabled_noop (s : ProcessState) (b : EventBuffer)
    (tls : Option EventBuffer) :
    EventIfDisabled.ctorFull s = s ∧
    EventIfDisabled.ctorAuto s = s ∧
    EventIfDisabled.InvokeSpecific b = b ∧
    EventIfDisabled.Invoke tls = tls ∧
    ScopedEventIfDisabled.ctor s = s ∧
    ScopedEventIfDisabled.EnterSpecific b = b ∧
    ScopedEventIfDisabled.LeaveSpecific b = b ∧
    ScopedEventIfDisabled.Enter tls = tls ∧
    ScopedEventIfDisabled.Leave tls = tls ∧
    AutoScopeIfDisabled.Enter tls = tls :=
  ⟨rfl, rfl, rfl, rfl, rfl, rfl, rfl, rfl, rfl, rfl⟩

/-- Any run of one more auto-id construction than the counter period
`2^32`, starting from counter pattern 0, registers a duplicated wire id:
calls number 1 and number `2^32 + 1` of `NextEventId` both return 0. -/
theorem not_nodup_of_wrap (sites : List CtorSite)
    (hlen : sites.length = wordMod + 1) :
    ¬ ((runAutoCtors ⟨0, []⟩ sites).registry.map
      EventDefinition.wire_id).Nodup := by
  intro hnd
  have h := runAutoCtors_registry_map sites ⟨0, []⟩ (by norm_num [wordMod])
  simp only [List.map_nil, List.nil_append] at h
  rw [h, hlen] at hnd
  have hinj := List.inj_on_of_nodup_map hnd
  have h0 : (0 : Nat) ∈ List.range (wordMod + 1) :=
    List.mem_range.mpr (Nat.succ_pos _)
  have h1 : wordMod ∈ List.range (wordMod + 1) :=
    List.mem_range.mpr (Nat.lt_succ_self _)
  have heq : (0 : Nat) = wordMod := by
    apply hinj h0 h1
    simp [Nat.mod_self]
  norm_num [wordMod] at heq

/-- C7 counterexample: the claim as stated fails within one process
lifetime, because `next_event_id_` is a `std::atomic<int>` whose fetch-add
wraps modulo `2^32`. Concretely, running `2^32 + 1` auto-id constructions
from counter pattern 0 registers the id 0 twice (calls number 1 and number
`2^32 + 1` of `NextEventId` both return 0), so the registered wire ids are
not pairwise distinct. -/
theorem wire_ids_wrap_counterexample :
    ¬ ((runAutoCtors ⟨0, []⟩
        (List.replicate (2 ^ 32 + 1) ⟨EventClass.kInstance, 0, "E"⟩)
      ).registry.map EventDefinition.wire_id).Nodup :=
  not_nodup_of_wrap
    (List.replicate (2 ^ 32 + 1) ⟨EventClass.kInstance, 0, "E"⟩)
    (by rw [List.length_replicate, wordMod])

/-- C7 (amended): wire-id uniqueness holds as long as the 32-bit atomic
counter has not wrapped. For every starting counter pattern and every
sequence of at most `2^32` auto-id event constructions, the registered wire
ids are exactly the successive fetch-add results `(c + i) % 2^32` and are
pairwise distinct — so, up to that bound, every call to `NextEventId`
returns a value never returned before. -/
theorem wire_ids_unique_bounded (c : Nat) (sites : List CtorSite)
    (hc : c < wordMod) (hn : sites.length ≤ wordMod) :
    (runAutoCtors ⟨c, []⟩ sites).registry.map EventDefinition.wire_id =
      (List.range sites.length).map (fun i => (c + i) % wordMod) ∧
    ((runAutoCtors ⟨c, []⟩ sites).registry.map
      EventDefinition.wire_id).Nodup := by
  have h := runAutoCtors_registry_map sites ⟨c, []⟩ hc
  simp only [List.map_nil, List.nil_append] at h
  exact ⟨h, h ▸ range_mod_nodup c sites.length hn⟩

/-- Witness for the amended C7 at a concrete start state and two
construction sites. -/
theorem wire_ids_unique_bounded_witness :
    (runAutoCtors ⟨3, []⟩
        [⟨EventClass.kInstance, 0, "A"⟩, ⟨EventClass.kScoped, 0, "B"⟩]
      ).registry.map EventDefinition.wire_id =
      (List.range 2).map (fun i => (3 + i) % wordMod) ∧
    ((runAutoCtors ⟨3, []⟩
        [⟨EventClass.kInstance, 0, "A"⟩, ⟨EventClass.kScoped, 0, "B"⟩]
      ).registry.map EventDefinition.wire_id).Nodup :=
  wire_ids_unique_bounded 3
    [⟨EventClass.kInstance, 0, "A"⟩, ⟨EventClass.kScoped, 0, "B"⟩]
    (by norm_num [wordMod]) (by norm_num [wordMod])

/-- C8: for every enabled scoped event, `EnterSpecific` appends exactly the
same entries (and performs exactly the same string-table updates) as an
instance event with the same wire id would via `InvokeSpecific` with the
same arguments: the code delegates directly to the base emission. -/
theorem enter_eq_invoke (se : ScopedEventIfEnabled) (ts : Nat)
    (b : EventBuffer) (args : List ArgValue) :
    se.EnterSpecific ts b args =
      EventIfEnabled.InvokeSpecific ⟨se.base.wire_id_⟩ ts b args := rfl

/-- C9: a borrowed-string (`const char*`) argument emits exactly one 32-bit
entry: for a null pointer the reserved empty-string id 0 without touching
the string table, and otherwise the string-table id returned by
`GetStringId` (reduced mod 2^32 at the `AddEntry` boundary), with the table
updated by that lookup alone. -/
theorem ascii_emit (b : EventBuffer) (s : String) :
    ArgTypeDef.Emit b (.ascii none) =
      { entries := b.entries ++ [StringTable.kEmptyStringId],
        string_table := b.string_table } ∧
    StringTable.kEmptyStringId = 0 ∧
    ArgTypeDef.Emit b (.ascii (some s)) =
      { entries := b.entries ++ [(b.string_table.GetStringId s).1 % wordMod],
        string_table := (b.string_table.GetStringId s).2 } := by
  refine ⟨?_, rfl, rfl⟩
  simp [ArgTypeDef.Emit, EventBuffer.AddEntry, StringTable.kEmptyStringId,
    wordMod]

/-- C10: disabled construction of an `EventIf` or `ScopedEventIf` leaves
the process-wide registry (and the counter) unchanged, whereas every
enabled construction appends exactly one `EventDefinition` to it. -/
theorem disabled_ctor_registry (s : ProcessState) (w flags : Nat)
    (event_class : EventClass) (name_spec : String) :
    (EventIfDisabled.ctorFull s).registry = s.registry ∧
    (EventIfDisabled.ctorAuto s).registry = s.registry ∧
    (ScopedEventIfDisabled.ctor s).registry = s.registry ∧
    (EventIfEnabled.ctorFull w event_class flags name_spec s).2.registry =
      s.registry ++ [EventDefinition.Create w event_class flags name_spec] ∧
    (EventIfEnabled.ctorAuto event_class flags name_spec s).2.registry =
      s.registry ++
        [EventDefinition.Create s.next_event_id_ event_class flags
          name_spec] :=
  ⟨rfl, rfl, rfl, rfl, rfl⟩

end Wtf
